import Mathlib

/-!
Verification of the DocumentCloud batch downloader (`src/main.go`).

The program is shallowly embedded over `List Char` (Go strings are byte
strings; all characters relevant to this program are ASCII, where Go bytes
and Unicode code points coincide).  Effects (HTTP, filesystem) are embedded
as explicit oracles and state passing:

* `goURLParse` embeds Go's `net/url.Parse` (the subset reachable by this
  program: fragment/query splitting, scheme extraction, authority/host
  parsing with port and host-character validation, percent-unescaping of
  the path).
* `extractFinalDocumentCloudURL` embeds the Pattern Resolver
  (src/main.go lines 18-44).
* `downloadPDF` embeds the Fetcher (src/main.go lines 47-104) over a
  network/filesystem oracle.
* `driverStep` / `runBatch` embed the Batch Driver loop
  (src/main.go lines 139-178).
* `readFileLines` embeds the input reader (src/main.go lines 116-136).
-/

/-! ## Character classes -/

/-- Control bytes as in Go `net/url.stringContainsCTLByte`: below space, or DEL. -/
def isCtl (c : Char) : Bool := decide (c.toNat < 32 ∨ c.toNat = 127)

/-- Decimal digit, the regex class `\d` (ASCII in Go regexp). -/
def isDigitC (c : Char) : Bool := decide (48 ≤ c.toNat ∧ c.toNat ≤ 57)

/-- ASCII letter. -/
def isAlphaC (c : Char) : Bool :=
  decide ((65 ≤ c.toNat ∧ c.toNat ≤ 90) ∨ (97 ≤ c.toNat ∧ c.toNat ≤ 122))

/-- The slug character class of the resolver regexes, `[a-zA-Z0-9_\-]`
(identical to `[\w\-]` since Go `\w` is `[0-9A-Za-z_]`). -/
def isSlugC (c : Char) : Bool :=
  isDigitC c || isAlphaC c || decide (c.toNat = 95) || decide (c.toNat = 45)

/-- Hex digit as in Go `net/url.ishex`. -/
def ishexC (c : Char) : Bool :=
  decide ((48 ≤ c.toNat ∧ c.toNat ≤ 57) ∨ (97 ≤ c.toNat ∧ c.toNat ≤ 102) ∨
    (65 ≤ c.toNat ∧ c.toNat ≤ 70))

/-- Hex digit value as in Go `net/url.unhex`. -/
def hexVal (c : Char) : Nat :=
  if 48 ≤ c.toNat ∧ c.toNat ≤ 57 then c.toNat - 48
  else if 97 ≤ c.toNat ∧ c.toNat ≤ 102 then c.toNat - 87
  else if 65 ≤ c.toNat ∧ c.toNat ≤ 70 then c.toNat - 55
  else 0

/-- The byte decoded from two hex digits, as a character (Go works on bytes;
for the ASCII range the two coincide). -/
def decodeHex (a b : Char) : Char := Char.ofNat (16 * hexVal a + hexVal b)

/-! ## List-of-char string helpers (Go `strings` package operations) -/

/-- Go `strings.HasPrefix p` applied as `startsWithL pat s`. -/
def startsWithL : List Char → List Char → Bool
  | [], _ => true
  | _ :: _, [] => false
  | p :: ps, c :: cs => p == c && startsWithL ps cs

/-- Go `strings.HasSuffix s suffix`. -/
def hasSuffixL (s suffix : List Char) : Bool := startsWithL suffix.reverse s.reverse

/-- Go `strings.Contains hay needle`. -/
def containsSub : List Char → List Char → Bool
  | [], n => n.isEmpty
  | x :: rest, n => startsWithL n (x :: rest) || containsSub rest n

/-- Go `strings.Cut s sep` for a one-character separator: returns
(before, after, found), cutting at the first occurrence. -/
def cutChar (c : Char) : List Char → List Char × List Char × Bool
  | [] => ([], [], false)
  | x :: rest =>
    if x = c then ([], rest, true)
    else
      let r := cutChar c rest
      (x :: r.1, r.2.1, r.2.2)

/-- Index of the last occurrence of a character (Go `strings.LastIndex`),
accumulator form. -/
def lastIdxAux (c : Char) (i : Nat) (best : Option Nat) : List Char → Option Nat
  | [] => best
  | x :: rest => lastIdxAux c (i + 1) (if x = c then some i else best) rest

/-- Index of the last occurrence of a character (Go `strings.LastIndex`). -/
def lastIdxOf (c : Char) (cs : List Char) : Option Nat := lastIdxAux c 0 none cs

/-- Go `strings.ToLower` (ASCII; `Char.toLower` lowers exactly A-Z). -/
def toLowerL (cs : List Char) : List Char := cs.map Char.toLower

/-- Whether `rawURL` contains a control byte
(Go `net/url.stringContainsCTLByte`). -/
def hasCtl (cs : List Char) : Bool := cs.any isCtl

/-! ## Embedding of Go `net/url.Parse` -/

/-- The result of Go `net/url.Parse`: the fields this program reads
(`Host`, `Path`) plus the fields `Parse` itself fills in along the way.
`opq` is Go's `URL.Opaque`. -/
structure GoURL where
  scheme : List Char
  opq : List Char
  host : List Char
  path : List Char
  rawQuery : List Char
  fragment : List Char
deriving DecidableEq

/-- Go `net/url.getScheme`, accumulator form: scan `rest` classifying each
byte; `orig` is the full input returned when no scheme is found. -/
def getSchemeGo (orig acc : List Char) : List Char → Option (List Char × List Char)
  | [] => some ([], orig)
  | c :: rest =>
    if isAlphaC c then getSchemeGo orig (acc ++ [c]) rest
    else if isDigitC c || c = '+' || c = '-' || c = '.' then
      if acc = [] then some ([], orig) else getSchemeGo orig (acc ++ [c]) rest
    else if c = ':' then
      if acc = [] then none else some (acc, rest)
    else some ([], orig)

/-- Go `net/url.getScheme`: split a leading `scheme:`;
`none` is the "missing protocol scheme" error. -/
def getScheme (cs : List Char) : Option (List Char × List Char) := getSchemeGo cs [] cs

/-- Go `net/url.validOptionalPort`: empty, or `:` followed by decimal digits. -/
def validOptionalPort : List Char → Bool
  | [] => true
  | c :: rest => c == ':' && rest.all isDigitC

/-- Characters Go's `shouldEscape(c, encodeHost)` accepts unescaped in a host. -/
def hostAllowedExtra : List Char :=
  ("-_.~!$&()*+,;=:[]<>".data) ++ [Char.ofNat 34, Char.ofNat 39]

/-- Go `net/url.shouldEscape` in `encodeHost` mode. -/
def shouldEscapeHost (c : Char) : Bool :=
  !(isAlphaC c || isDigitC c || hostAllowedExtra.contains c)

/-- Go `net/url.unescape` in `encodeHost` mode: validate `%`-escapes
(escaped bytes below 0x80 are rejected except `%25`) and reject invalid
unescaped host bytes. -/
def unescapeHost : List Char → Option (List Char)
  | [] => some []
  | c :: rest =>
    if c = '%' then
      match rest with
      | a :: b :: rest2 =>
        if ishexC a && ishexC b then
          if hexVal a < 8 && !(a == '2' && b == '5') then none
          else (unescapeHost rest2).map (fun t => decodeHex a b :: t)
        else none
      | _ => none
    else if decide (c.toNat < 128) && shouldEscapeHost c then none
    else (unescapeHost rest).map (fun t => c :: t)

/-- Go `net/url.unescape` in `encodePath` (and `encodeFragment`) mode:
validate and decode `%`-escapes, pass everything else through. -/
def unescapePath : List Char → Option (List Char)
  | [] => some []
  | c :: rest =>
    if c = '%' then
      match rest with
      | a :: b :: rest2 =>
        if ishexC a && ishexC b then (unescapePath rest2).map (fun t => decodeHex a b :: t)
        else none
      | _ => none
    else (unescapePath rest).map (fun t => c :: t)

/-- Characters Go `net/url.validUserinfo` accepts. -/
def userinfoExtra : List Char := ("-._:~!$&()*+,;=%@".data) ++ [Char.ofNat 39]

/-- Go `net/url.validUserinfo`. -/
def validUserinfo (cs : List Char) : Bool :=
  cs.all fun c => isAlphaC c || isDigitC c || userinfoExtra.contains c

/-- Validity of the `%`-escapes of a userinfo component (the error cases of
Go's `unescape` in `encodeUserPassword` mode). -/
def escOk : List Char → Bool
  | [] => true
  | c :: rest =>
    if c = '%' then
      match rest with
      | a :: b :: rest2 => ishexC a && ishexC b && escOk rest2
      | _ => false
    else escOk rest

/-- Go `net/url.parseHost` (the non-IPv6-zone subset; for a bracketed IPv6
host the zone is unescaped like the rest of the host). -/
def parseHost (h : List Char) : Option (List Char) :=
  if startsWithL (("[").data) h then
    match lastIdxOf ']' h with
    | none => none
    | some i => if validOptionalPort (h.drop (i + 1)) then unescapeHost h else none
  else
    match lastIdxOf ':' h with
    | some i => if validOptionalPort (h.drop i) then unescapeHost h else none
    | none => unescapeHost h

/-- Go `net/url.parseAuthority`: split userinfo at the last `@`, validate it,
parse the host (which keeps any port). Returns the `Host` field. -/
def parseAuthority (authority : List Char) : Option (List Char) :=
  match lastIdxOf '@' authority with
  | none => parseHost authority
  | some i =>
    match parseHost (authority.drop (i + 1)) with
    | none => none
    | some h =>
      if validUserinfo (authority.take i) && escOk (authority.take i) then some h
      else none

/-- Tail of Go `net/url.parse`: authority detection (`//`-prefix rule) and
path unescaping, for `viaRequest = false`. -/
def goParseTail (scheme rawQuery rest : List Char) : Option GoURL :=
  if (!scheme.isEmpty || !startsWithL (("///").data) rest) &&
      startsWithL (("//").data) rest then
    match parseAuthority ((rest.drop 2).takeWhile (fun c => c ≠ '/')) with
    | none => none
    | some host =>
      (unescapePath ((rest.drop 2).dropWhile (fun c => c ≠ '/'))).map
        (fun p => ⟨scheme, [], host, p, rawQuery, []⟩)
  else
    (unescapePath rest).map (fun p => ⟨scheme, [], [], p, rawQuery, []⟩)

/-- Middle of Go `net/url.parse` after query splitting: the rootless-path
cases (opaque URL when a scheme is present, colon check on the first path
segment when not). -/
def goParseAfterQuery (scheme rawQuery rest : List Char) : Option GoURL :=
  if startsWithL (("/").data) rest then goParseTail scheme rawQuery rest
  else if !scheme.isEmpty then some ⟨scheme, rest, [], [], rawQuery, []⟩
  else if (rest.takeWhile (fun c => c ≠ '/')).contains ':' then none
  else goParseTail scheme rawQuery rest

/-- Query splitting of Go `net/url.parse`: a single trailing `?` forces an
empty query, otherwise cut at the first `?`. -/
def goParseAfterScheme (scheme rest0 : List Char) : Option GoURL :=
  if hasSuffixL rest0 (("?").data) && !(rest0.dropLast.contains '?') then
    goParseAfterQuery scheme [] rest0.dropLast
  else
    goParseAfterQuery scheme (cutChar '?' rest0).2.1 (cutChar '?' rest0).1

/-- Go `net/url.parse` with `viaRequest = false` (the fragment has already
been split off): control-byte check, scheme extraction and lowering, then
query/authority/path handling. -/
def goParseNoFrag (rawURL : List Char) : Option GoURL :=
  if hasCtl rawURL then none
  else
    match getScheme rawURL with
    | none => none
    | some (scheme0, rest0) => goParseAfterScheme (toLowerL scheme0) rest0

/-- Go `net/url.Parse`: split the fragment at the first `#`, parse the rest,
then validate and unescape the fragment. -/
def goURLParse (rawURL : List Char) : Option GoURL :=
  match goParseNoFrag (cutChar '#' rawURL).1 with
  | none => none
  | some url =>
    if (cutChar '#' rawURL).2.2 then
      match unescapePath (cutChar '#' rawURL).2.1 with
      | none => none
      | some f => some { url with fragment := f }
    else some url

/-! ## Pattern Resolver (src/main.go lines 18-44) -/

/-- The literal part of the resolver regex
`documentcloud\.org/documents/(\d+)-([a-zA-Z0-9_\-]+)`. -/
def docLit : List Char := ("documentcloud.org/documents/").data

/-- The part of the anchored resolver-regex attempt after the digit run: a
`-` followed by a maximal nonempty slug run. -/
def matchDocSlug : List Char → Option (List Char)
  | [] => none
  | y :: rest2 =>
    if y = '-' then
      if (rest2.takeWhile isSlugC).isEmpty = true then none
      else some (rest2.takeWhile isSlugC)
    else none

/-- One anchored attempt of the resolver regex at the head of `cs`:
the literal, then a maximal nonempty digit run, then `-`, then a maximal
nonempty slug run.  Greedy matching without backtracking is exact here: a
shorter digit run is followed by a digit, never by `-`. -/
def matchDocAt (cs : List Char) : Option (List Char × List Char) :=
  if startsWithL docLit cs = true then
    if ((cs.drop docLit.length).takeWhile isDigitC).isEmpty = true then none
    else
      match matchDocSlug ((cs.drop docLit.length).dropWhile isDigitC) with
      | none => none
      | some s => some ((cs.drop docLit.length).takeWhile isDigitC, s)
  else none

/-- Go `regexp.FindStringSubmatch` for the resolver regex: the leftmost
position where the anchored attempt succeeds, returning the two capture
groups (document ID, slug). -/
def findDocPattern : List Char → Option (List Char × List Char)
  | [] => none
  | c :: cs =>
    match matchDocAt (c :: cs) with
    | some r => some r
    | none => findDocPattern cs

/-- The canonical storage host marker tested with `strings.Contains`
(src/main.go line 25). -/
def s3Marker : List Char := ("s3.documentcloud.org").data

/-- The output of the resolver's `fmt.Sprintf`
(src/main.go line 41): `https://s3.documentcloud.org/documents/<d>/<s>.pdf`. -/
def mkS3 (d s : List Char) : List Char :=
  ("https://s3.documentcloud.org/documents/").data ++ (d ++ '/' :: (s ++ (".pdf").data))

/-- The Pattern Resolver `extractFinalDocumentCloudURL`
(src/main.go lines 18-44).  The empty list models the empty string. -/
def extractFinalDocumentCloudURL (input : List Char) : List Char :=
  match goURLParse input with
  | none => []
  | some parsedURL =>
    if containsSub parsedURL.host s3Marker then input
    else
      match findDocPattern input with
      | none => []
      | some (docID, slug) => mkS3 docID slug

/-! ## Path handling (Go `path.Base`, `path/filepath.Join`) -/

/-- Strip trailing slashes (first step of Go `path.Base`). -/
def dropTrailingSlashes (p : List Char) : List Char :=
  (p.reverse.dropWhile (fun c => c = '/')).reverse

/-- The segment after the last slash (second step of Go `path.Base`). -/
def afterLastSlash (q : List Char) : List Char :=
  (q.reverse.takeWhile (fun c => c ≠ '/')).reverse

/-- Go `path.Base`. -/
def pathBase (p : List Char) : List Char :=
  if p.isEmpty then ['.']
  else
    let b := afterLastSlash (dropTrailingSlashes p)
    if b.isEmpty then ['/'] else b

/-- Split on `/`, keeping empty components (helper for Go `path.Clean`). -/
def splitSlash (p : List Char) : List (List Char) :=
  p.foldr
    (fun c acc =>
      if c = '/' then [] :: acc
      else
        match acc with
        | a :: rest => (c :: a) :: rest
        | [] => [[c]])
    [[]]

/-- One component step of Go `path.Clean`: skip empty and `.` components,
resolve `..` against the stack (kept in reverse order). -/
def cleanStep (rooted : Bool) (stack : List (List Char)) (comp : List Char) :
    List (List Char) :=
  if comp.isEmpty || comp = ['.'] then stack
  else if comp = ['.', '.'] then
    match stack with
    | top :: rest => if top = ['.', '.'] then comp :: stack else rest
    | [] => if rooted then [] else [comp]
  else comp :: stack

/-- Go `path/filepath.Clean` for slash-separated (Unix) paths. -/
def pathClean (p : List Char) : List Char :=
  if p.isEmpty then ['.']
  else
    let rooted := startsWithL (("/").data) p
    let body := List.intercalate (("/").data) ((splitSlash p).foldl (cleanStep rooted) []).reverse
    if rooted then '/' :: body
    else if body.isEmpty then ['.'] else body

/-- Go `path/filepath.Join` for two elements on Unix: join the elements from
the first non-empty one with `/` and clean the result. -/
def filepathJoin (a b : List Char) : List Char :=
  if !a.isEmpty then pathClean (a ++ '/' :: b)
  else if !b.isEmpty then pathClean b
  else []

/-! ## Fetcher (src/main.go lines 47-113) -/

/-- The output file name the Fetcher derives from a parsed final URL
(src/main.go lines 54-63): last path segment, rejected when empty or `/`,
with `.pdf` appended when the case-insensitive suffix is absent. -/
def fetchFileName (u : GoURL) : Option (List Char) :=
  if ((pathBase u.path).isEmpty || pathBase u.path = ['/'] : Bool) then none
  else if hasSuffixL (toLowerL (pathBase u.path)) ((".pdf").data) then
    some (pathBase u.path)
  else some (pathBase u.path ++ (".pdf").data)

/-- The filesystem state: a map from file paths to file contents (byte
lists).  Directories are not tracked; `os.MkdirAll` is an oracle in `Env`. -/
def FS : Type := List Char → Option (List Nat)

/-- `fileExists` (src/main.go lines 107-113): the path holds a regular file.
The model stores only regular files, so presence in the map is existence. -/
def fileExists (fs : FS) (filename : List Char) : Bool := (fs filename).isSome

/-- Creating/overwriting a file in the filesystem state. -/
def fsUpdate (fs : FS) (p : List Char) (v : List Nat) : FS :=
  fun q => if q = p then some v else fs q

/-- An HTTP response as the Fetcher observes it: the status code, the body,
and `copyErr = some k` when reading the body fails after `k` bytes
(the `io.Copy` error path). -/
structure HTTPResponse where
  status : Nat
  body : List Nat
  copyErr : Option Nat
deriving DecidableEq

/-- The effect oracle: outcome of `http.Get` (none = transport error), of
`os.MkdirAll`, and of `os.Create`. -/
structure Env where
  net : List Char → Option HTTPResponse
  mkdirOk : List Char → Bool
  createOk : List Char → Bool

/-- The observable actions of one item, in order: the log lines of
src/main.go plus the network GET and the file creation. -/
inductive Event where
  | invalidURL (u : List Char)
  | noFileName (u : List Char)
  | mkdirFailed (d : List Char)
  | fileExistsSkip (p : List Char)
  | netGet (u : List Char)
  | downloadFailed (u : List Char)
  | badStatus (u : List Char)
  | createFailed (p : List Char)
  | fileCreated (p : List Char)
  | copyFailed (p : List Char)
  | downloaded (p : List Char)
  | capReached
  | unrecognized (u : List Char)
  | invalidFinal (u : List Char)
  | existsNotCounted (p : List Char)
  | fetcherInvoked (u : List Char)
deriving DecidableEq

/-- The Fetcher `downloadPDF` (src/main.go lines 47-104): parse, derive the
file name, ensure the directory, skip when the target exists, GET, check the
status, create the file and copy the body (a failed copy leaves the bytes
written so far).  Every failure is logged and the function returns; nothing
is propagated. -/
def downloadPDF (env : Env) (finalURL outputDir : List Char) (fs : FS) :
    FS × List Event :=
  match goURLParse finalURL with
  | none => (fs, [Event.invalidURL finalURL])
  | some parsedURL =>
    match fetchFileName parsedURL with
    | none => (fs, [Event.noFileName finalURL])
    | some fileName =>
      if env.mkdirOk outputDir = false then (fs, [Event.mkdirFailed outputDir])
      else if fileExists fs (filepathJoin outputDir fileName) = true then
        (fs, [Event.fileExistsSkip (filepathJoin outputDir fileName)])
      else
        match env.net finalURL with
        | none => (fs, [Event.netGet finalURL, Event.downloadFailed finalURL])
        | some resp =>
          if resp.status ≠ 200 then
            (fs, [Event.netGet finalURL, Event.badStatus finalURL])
          else if env.createOk (filepathJoin outputDir fileName) = false then
            (fs, [Event.netGet finalURL, Event.createFailed (filepathJoin outputDir fileName)])
          else
            match resp.copyErr with
            | some k =>
              (fsUpdate fs (filepathJoin outputDir fileName) (resp.body.take k),
                [Event.netGet finalURL, Event.fileCreated (filepathJoin outputDir fileName),
                  Event.copyFailed (filepathJoin outputDir fileName)])
            | none =>
              (fsUpdate fs (filepathJoin outputDir fileName) resp.body,
                [Event.netGet finalURL, Event.fileCreated (filepathJoin outputDir fileName),
                  Event.downloaded (filepathJoin outputDir fileName)])

/-! ## Batch Driver (src/main.go lines 139-178) -/

/-- The fixed output directory of the Batch Driver (src/main.go line 142). -/
def pdfDir : List Char := ("./NYPD_PDF/").data

/-- The fixed download ceiling (src/main.go line 145). -/
def maxDownloads : Nat := 1000

/-- One loop body of `main` below the cap check (src/main.go lines 153-176):
resolve, re-parse, re-derive the file name, check existence, and either skip
or invoke the Fetcher.  The boolean reports whether `downloadCount` was
incremented. -/
def driverStep (env : Env) (url : List Char) (fs : FS) : FS × List Event × Bool :=
  if (extractFinalDocumentCloudURL url).isEmpty = true then
    (fs, [Event.unrecognized url], false)
  else
    match goURLParse (extractFinalDocumentCloudURL url) with
    | none => (fs, [Event.invalidFinal (extractFinalDocumentCloudURL url)], false)
    | some parsedURL =>
      if (pathBase parsedURL.path).isEmpty = true then (fs, [], false)
      else if fileExists fs (filepathJoin pdfDir (pathBase parsedURL.path)) = true then
        (fs, [Event.existsNotCounted (filepathJoin pdfDir (pathBase parsedURL.path))], false)
      else
        ((downloadPDF env (extractFinalDocumentCloudURL url) pdfDir fs).1,
          Event.fetcherInvoked (extractFinalDocumentCloudURL url)
            :: (downloadPDF env (extractFinalDocumentCloudURL url) pdfDir fs).2,
          true)

/-- The loop of `main` (src/main.go lines 147-177): stop, logging, as soon
as the counter has reached the ceiling while an item remains; otherwise run
one step and continue with the possibly incremented counter. -/
def runBatch (env : Env) : List (List Char) → Nat → FS → FS × List Event
  | [], _, fs => (fs, [])
  | url :: rest, downloadCount, fs =>
    if maxDownloads ≤ downloadCount then (fs, [Event.capReached])
    else
      ((runBatch env rest
          (if (driverStep env url fs).2.2 = true then downloadCount + 1 else downloadCount)
          (driverStep env url fs).1).1,
        (driverStep env url fs).2.1
          ++ (runBatch env rest
                (if (driverStep env url fs).2.2 = true then downloadCount + 1 else downloadCount)
                (driverStep env url fs).1).2)

/-! ## Input reading (src/main.go lines 116-136) -/

/-- `readFileLines` over an oracle describing the file: `none` models an
`os.Open` error; `some (ls, e)` models a successful open where the scanner
yields the lines `ls` and `e` is whether `scanner.Err()` reports a read
error.  Go returns `nil` in both error cases, discarding any lines already
scanned; `[]` models the nil slice. -/
def readFileLines (file : Option (List (List Char) × Bool)) : List (List Char) :=
  match file with
  | none => []
  | some (ls, e) => if e then [] else ls

/-! ## Counting events -/

/-- Whether an event is an invocation of the Fetcher by the driver. -/
def isFetchEv : Event → Bool
  | Event.fetcherInvoked _ => true
  | _ => false

/-- Whether an event is a successful `os.Create` of a new output file. -/
def isCreateEv : Event → Bool
  | Event.fileCreated _ => true
  | _ => false

/-- Whether an event is a network GET. -/
def isGetEv : Event → Bool
  | Event.netGet _ => true
  | _ => false

/-- Number of events satisfying `p`. -/
def countEv (p : Event → Bool) (l : List Event) : Nat := (l.filter p).length

/-! ## Concrete values used in the example theorems -/

/-- The spec's example input URL. -/
def exInput : List Char :=
  ("https://www.documentcloud.org/documents/23461534-200301254_redactedclosingreport_redacted").data

/-- The spec's example output URL. -/
def exOutput : List Char :=
  ("https://s3.documentcloud.org/documents/23461534/200301254_redactedclosingreport_redacted.pdf").data

/-- A URL already on the storage host, without a `.pdf` last segment. -/
def exPassthrough : List Char := ("https://s3.documentcloud.org/documents/1/a").data

/-- A URL whose host merely contains the storage marker as a substring. -/
def exOddHost : List Char := ("https://xs3.documentcloud.org/a").data

/-- An oracle where every GET fails at the transport level and all
filesystem operations succeed. -/
def envNoNet : Env :=
  { net := fun _ => none, mkdirOk := fun _ => true, createOk := fun _ => true }

/-- An oracle where every GET returns status 404. -/
def envBadStatus : Env :=
  { net := fun _ => some ⟨404, [], none⟩, mkdirOk := fun _ => true,
    createOk := fun _ => true }

/-- An oracle where every GET returns status 200 with a four-byte body whose
copy to disk fails after two bytes. -/
def envPartialCopy : Env :=
  { net := fun _ => some ⟨200, [1, 2, 3, 4], some 2⟩, mkdirOk := fun _ => true,
    createOk := fun _ => true }

/-- The empty filesystem. -/
def fsEmpty : FS := fun _ => none

/-- A filesystem holding one file, the driver's target for `exPassthrough`
with the Fetcher's name. -/
def fsWithFile : FS :=
  fun p => if p = (("NYPD_PDF/a.pdf").data) then some [7] else none

/-! ## Basic lemmas about the string helpers -/

theorem startsWithL_append_self (p x : List Char) : startsWithL p (p ++ x) = true := by
  induction p with
  | nil => rfl
  | cons c cs ih => simp [startsWithL, ih]

theorem startsWithL_exists_append {p s : List Char} (h : startsWithL p s = true) :
    ∃ t, s = p ++ t := by
  induction p generalizing s with
  | nil => exact ⟨s, rfl⟩
  | cons c cs ih =>
    cases s with
    | nil => simp [startsWithL] at h
    | cons d ds =>
      simp only [startsWithL, Bool.and_eq_true, beq_iff_eq] at h
      obtain ⟨t, ht⟩ := ih h.2
      exact ⟨t, by simp [h.1, ht]⟩

theorem cutChar_not_mem {c : Char} {cs : List Char} (h : c ∉ cs) :
    cutChar c cs = (cs, [], false) := by
  induction cs with
  | nil => rfl
  | cons x rest ih =>
    have hx : ¬ x = c := fun e => h (e ▸ List.mem_cons_self x rest)
    have hr := ih (fun hm => h (List.mem_cons_of_mem _ hm))
    simp [cutChar, hx, hr]

theorem hasSuffixL_singleton_false {s : List Char} {q : Char} (h : q ∉ s) :
    hasSuffixL s [q] = false := by
  unfold hasSuffixL
  cases hs : s.reverse with
  | nil => rfl
  | cons a t =>
    have ha : a ∈ s := by
      rw [← List.mem_reverse, hs]
      exact List.mem_cons_self a t
    have hqa : ¬ (q == a) = true := by
      simp only [beq_iff_eq]
      rintro rfl
      exact h ha
    simp [startsWithL, hqa]

theorem unescapePath_no_pct {cs : List Char} (h : ∀ x ∈ cs, x ≠ '%') :
    unescapePath cs = some cs := by
  induction cs with
  | nil => rfl
  | cons c rest ih =>
    have hc : ¬ c = '%' := h c (List.mem_cons_self _ _)
    have hr := ih (fun x hx => h x (List.mem_cons_of_mem _ hx))
    rw [unescapePath.eq_def]
    simp [hc, hr]

theorem takeWhile_all_stop {p : Char → Bool} {d : List Char} {y : Char} {t : List Char}
    (hd : ∀ x ∈ d, p x = true) (hy : p y = false) :
    (d ++ y :: t).takeWhile p = d := by
  induction d with
  | nil => simp [List.takeWhile, hy]
  | cons c cs ih =>
    have hc := hd c (List.mem_cons_self _ _)
    simp only [List.cons_append, List.takeWhile_cons, hc]
    simp [ih (fun x hx => hd x (List.mem_cons_of_mem _ hx))]

theorem dropWhile_all_stop {p : Char → Bool} {d : List Char} {y : Char} {t : List Char}
    (hd : ∀ x ∈ d, p x = true) (hy : p y = false) :
    (d ++ y :: t).dropWhile p = y :: t := by
  induction d with
  | nil => simp [List.dropWhile, hy]
  | cons c cs ih =>
    have hc := hd c (List.mem_cons_self _ _)
    simp only [List.cons_append, List.dropWhile_cons, hc]
    simp [ih (fun x hx => hd x (List.mem_cons_of_mem _ hx))]

theorem mem_takeWhile_pred {p : Char → Bool} {l : List Char} {x : Char}
    (h : x ∈ l.takeWhile p) : p x = true := by
  induction l with
  | nil => simp [List.takeWhile] at h
  | cons c cs ih =>
    rw [List.takeWhile_cons] at h
    by_cases hc : p c = true
    · rw [if_pos hc] at h
      rcases List.mem_cons.mp h with rfl | hm
      · exact hc
      · exact ih hm
    · rw [if_neg hc] at h
      simp at h

/-! ## Character-class lemmas -/

theorem isDigitC_isSlugC {c : Char} (h : isDigitC c = true) : isSlugC c = true := by
  simp [isSlugC, h]

theorem isSlugC_facts {c : Char} (h : isSlugC c = true) :
    c ≠ '#' ∧ c ≠ '?' ∧ c ≠ '%' ∧ c ≠ '/' ∧ isCtl c = false := by
  refine ⟨?_, ?_, ?_, ?_, ?_⟩
  · rintro rfl; exact absurd h (by decide)
  · rintro rfl; exact absurd h (by decide)
  · rintro rfl; exact absurd h (by decide)
  · rintro rfl; exact absurd h (by decide)
  · simp only [isSlugC, isDigitC, isAlphaC, Bool.or_eq_true, decide_eq_true_eq] at h
    simp only [isCtl, decide_eq_false_iff_not]
    omega

theorem isDigitC_dash_false : isDigitC '-' = false := by decide

/-! ## Lemmas on the regex model -/

theorem matchDocSlug_complete {s post : List Char}
    (hs : s ≠ []) (hsa : ∀ c ∈ s, isSlugC c = true) :
    (matchDocSlug ('-' :: (s ++ post))).isSome = true := by
  cases s with
  | nil => exact absurd rfl hs
  | cons a t =>
    have ha : isSlugC a = true := hsa a (List.mem_cons_self _ _)
    simp [matchDocSlug, List.takeWhile_cons, ha]

theorem matchDocSlug_sound {X s : List Char} (h : matchDocSlug X = some s) :
    (∃ rest2, X = '-' :: rest2 ∧ rest2.takeWhile isSlugC = s) ∧
      s ≠ [] ∧ (∀ c ∈ s, isSlugC c = true) := by
  cases X with
  | nil => cases h
  | cons y rest2 =>
    simp only [matchDocSlug] at h
    by_cases hy : y = '-'
    · subst hy
      rw [if_pos rfl] at h
      by_cases hse : (rest2.takeWhile isSlugC).isEmpty = true
      · rw [if_pos hse] at h; cases h
      · rw [if_neg hse] at h
        have hs2 : rest2.takeWhile isSlugC = s := Option.some.inj h
        refine ⟨⟨rest2, rfl, hs2⟩, ?_, ?_⟩
        · intro hsn
          rw [hs2, hsn] at hse
          exact hse rfl
        · intro c hc
          rw [← hs2] at hc
          exact mem_takeWhile_pred hc
    · rw [if_neg hy] at h; cases h

theorem matchDocAt_complete {d s post : List Char}
    (hd : d ≠ []) (hda : ∀ c ∈ d, isDigitC c = true)
    (hs : s ≠ []) (hsa : ∀ c ∈ s, isSlugC c = true) :
    (matchDocAt (docLit ++ (d ++ '-' :: (s ++ post)))).isSome = true := by
  unfold matchDocAt
  rw [if_pos (startsWithL_append_self docLit _)]
  rw [List.drop_left]
  rw [takeWhile_all_stop hda isDigitC_dash_false,
    dropWhile_all_stop hda isDigitC_dash_false]
  have hde : d.isEmpty = false := by
    cases d with
    | nil => exact absurd rfl hd
    | cons a t => rfl
  rw [if_neg (by simp [hde])]
  cases hms : matchDocSlug ('-' :: (s ++ post)) with
  | none =>
    have hc := @matchDocSlug_complete s post hs hsa
    rw [hms] at hc
    simp at hc
  | some s2 => rfl

theorem matchDocAt_sound {cs d s : List Char} (h : matchDocAt cs = some (d, s)) :
    (∃ post, cs = docLit ++ (d ++ '-' :: (s ++ post))) ∧
      d ≠ [] ∧ (∀ c ∈ d, isDigitC c = true) ∧ s ≠ [] ∧ (∀ c ∈ s, isSlugC c = true) := by
  unfold matchDocAt at h
  by_cases hsw : startsWithL docLit cs = true
  · rw [if_pos hsw] at h
    obtain ⟨t, rfl⟩ := startsWithL_exists_append hsw
    rw [List.drop_left] at h
    by_cases hde : (t.takeWhile isDigitC).isEmpty = true
    · rw [if_pos hde] at h; cases h
    · rw [if_neg hde] at h
      cases hms : matchDocSlug (t.dropWhile isDigitC) with
      | none => rw [hms] at h; cases h
      | some s2 =>
        rw [hms] at h
        have hd2 : t.takeWhile isDigitC = d := congrArg Prod.fst (Option.some.inj h)
        have hs2 : s2 = s := congrArg Prod.snd (Option.some.inj h)
        subst hs2
        obtain ⟨⟨rest2, hXd, hXs⟩, hsne, hsall⟩ := matchDocSlug_sound hms
        have ht : t = d ++ '-' :: rest2 := by
          rw [← hd2, ← hXd]
          exact (List.takeWhile_append_dropWhile isDigitC t).symm
        have hr2 : rest2 = s2 ++ rest2.dropWhile isSlugC := by
          rw [← hXs]
          exact (List.takeWhile_append_dropWhile isSlugC rest2).symm
        refine ⟨⟨rest2.dropWhile isSlugC, ?_⟩, ?_, ?_, hsne, hsall⟩
        · rw [ht, ← hr2]
        · intro hdn
          rw [hd2, hdn] at hde
          exact hde rfl
        · intro c hc
          rw [← hd2] at hc
          exact mem_takeWhile_pred hc
  · rw [if_neg hsw] at h; cases h

theorem findDocPattern_isSome {X : List Char} (hX : (matchDocAt X).isSome = true) :
    ∀ pre, (findDocPattern (pre ++ X)).isSome = true := by
  intro pre
  induction pre with
  | nil =>
    cases X with
    | nil => simp [matchDocAt, startsWithL, docLit] at hX
    | cons c cs =>
      rw [List.nil_append]
      unfold findDocPattern
      cases hm : matchDocAt (c :: cs) with
      | none => rw [hm] at hX; simp at hX
      | some r => rfl
  | cons c pre ih =>
    rw [List.cons_append]
    unfold findDocPattern
    cases hm : matchDocAt (c :: (pre ++ X)) with
    | none => exact ih
    | some r => rfl

theorem findDocPattern_sound {cs d s : List Char}
    (h : findDocPattern cs = some (d, s)) :
    (∃ pre post, cs = pre ++ (docLit ++ (d ++ '-' :: (s ++ post)))) ∧
      d ≠ [] ∧ (∀ c ∈ d, isDigitC c = true) ∧ s ≠ [] ∧ (∀ c ∈ s, isSlugC c = true) := by
  induction cs with
  | nil => cases h
  | cons c rest ih =>
    unfold findDocPattern at h
    cases hm : matchDocAt (c :: rest) with
    | none =>
      rw [hm] at h
      obtain ⟨⟨pre, post, hdec⟩, p2, p3, p4, p5⟩ := ih h
      exact ⟨⟨c :: pre, post, by rw [hdec, List.cons_append]⟩, p2, p3, p4, p5⟩
    | some r =>
      rw [hm] at h
      cases h
      obtain ⟨⟨post, hdec⟩, p2, p3, p4, p5⟩ := matchDocAt_sound hm
      exact ⟨⟨[], post, by rw [hdec, List.nil_append]⟩, p2, p3, p4, p5⟩

/-! ## Parsing the resolver's constructed URL -/

theorem mem_mkS3_cases {x : Char} {d s : List Char} (h : x ∈ mkS3 d s) :
    x ∈ (("https://s3.documentcloud.org/documents/").data) ∨ x ∈ d ∨ x = '/' ∨
      x ∈ s ∨ x ∈ ((".pdf").data) := by
  unfold mkS3 at h
  rcases List.mem_append.mp h with h1 | h2
  · exact Or.inl h1
  · rcases List.mem_append.mp h2 with h3 | h4
    · exact Or.inr (Or.inl h3)
    · rcases List.mem_cons.mp h4 with h5 | h6
      · exact Or.inr (Or.inr (Or.inl h5))
      · rcases List.mem_append.mp h6 with h7 | h8
        · exact Or.inr (Or.inr (Or.inr (Or.inl h7)))
        · exact Or.inr (Or.inr (Or.inr (Or.inr h8)))

theorem mkS3_no_hash {d s : List Char}
    (hda : ∀ c ∈ d, isDigitC c = true) (hsa : ∀ c ∈ s, isSlugC c = true) :
    '#' ∉ mkS3 d s := by
  intro h
  rcases mem_mkS3_cases h with h1 | h2 | h3 | h4 | h5
  · exact absurd h1 (by decide)
  · exact absurd rfl (isSlugC_facts (isDigitC_isSlugC (hda _ h2))).1
  · exact absurd h3 (by decide)
  · exact absurd rfl (isSlugC_facts (hsa _ h4)).1
  · exact absurd h5 (by decide)

theorem mkS3_no_ctl {d s : List Char}
    (hda : ∀ c ∈ d, isDigitC c = true) (hsa : ∀ c ∈ s, isSlugC c = true) :
    hasCtl (mkS3 d s) = false := by
  rw [hasCtl, List.any_eq_false]
  intro x hx
  rw [Bool.not_eq_true]
  have hhead : ∀ y ∈ (("https://s3.documentcloud.org/documents/").data), isCtl y = false := by
    decide
  have hpdf : ∀ y ∈ ((".pdf").data), isCtl y = false := by decide
  rcases mem_mkS3_cases hx with h1 | h2 | h3 | h4 | h5
  · exact hhead x h1
  · exact (isSlugC_facts (isDigitC_isSlugC (hda _ h2))).2.2.2.2
  · rw [h3]; decide
  · exact (isSlugC_facts (hsa _ h4)).2.2.2.2
  · exact hpdf x h5

theorem mem_docshape_cases {x : Char} {lit d s lit2 : List Char}
    (h : x ∈ lit ++ (d ++ '/' :: (s ++ lit2))) :
    x ∈ lit ∨ x ∈ d ∨ x = '/' ∨ x ∈ s ∨ x ∈ lit2 := by
  rcases List.mem_append.mp h with h1 | h2
  · exact Or.inl h1
  · rcases List.mem_append.mp h2 with h3 | h4
    · exact Or.inr (Or.inl h3)
    · rcases List.mem_cons.mp h4 with h5 | h6
      · exact Or.inr (Or.inr (Or.inl h5))
      · rcases List.mem_append.mp h6 with h7 | h8
        · exact Or.inr (Or.inr (Or.inr (Or.inl h7)))
        · exact Or.inr (Or.inr (Or.inr (Or.inr h8)))

theorem restA_no_qmark {d s : List Char}
    (hda : ∀ c ∈ d, isDigitC c = true) (hsa : ∀ c ∈ s, isSlugC c = true) :
    '?' ∉ (("//s3.documentcloud.org/documents/").data)
      ++ (d ++ '/' :: (s ++ ((".pdf").data))) := by
  intro h
  rcases mem_docshape_cases h with h1 | h2 | h3 | h4 | h5
  · exact absurd h1 (by decide)
  · exact absurd rfl (isSlugC_facts (isDigitC_isSlugC (hda _ h2))).2.1
  · exact absurd h3 (by decide)
  · exact absurd rfl (isSlugC_facts (hsa _ h4)).2.1
  · exact absurd h5 (by decide)

theorem pathA_no_pct {d s : List Char}
    (hda : ∀ c ∈ d, isDigitC c = true) (hsa : ∀ c ∈ s, isSlugC c = true) :
    ∀ x ∈ (("/documents/").data) ++ (d ++ '/' :: (s ++ ((".pdf").data))), x ≠ '%' := by
  intro x hx
  have hlit : ∀ y ∈ (("/documents/").data), y ≠ '%' := by decide
  have hpdf : ∀ y ∈ ((".pdf").data), y ≠ '%' := by decide
  rcases mem_docshape_cases hx with h1 | h2 | h3 | h4 | h5
  · exact hlit x h1
  · exact (isSlugC_facts (isDigitC_isSlugC (hda _ h2))).2.2.1
  · rw [h3]; decide
  · exact (isSlugC_facts (hsa _ h4)).2.2.1
  · exact hpdf x h5

theorem goParseTail_s3 {d s : List Char}
    (hda : ∀ c ∈ d, isDigitC c = true) (hsa : ∀ c ∈ s, isSlugC c = true) :
    goParseTail (("https").data) []
        ((("//s3.documentcloud.org/documents/").data) ++ (d ++ '/' :: (s ++ ((".pdf").data))))
      = some ⟨("https").data, [], s3Marker,
          (("/documents/").data) ++ (d ++ '/' :: (s ++ ((".pdf").data))), [], []⟩ := by
  have key : goParseTail (("https").data) []
        ((("//s3.documentcloud.org/documents/").data) ++ (d ++ '/' :: (s ++ ((".pdf").data))))
      = (unescapePath ((("/documents/").data) ++ (d ++ '/' :: (s ++ ((".pdf").data))))).map
          (fun p => ⟨("https").data, [], s3Marker, p, [], []⟩) := rfl
  rw [key, unescapePath_no_pct (pathA_no_pct hda hsa)]
  rfl

theorem goParseAfterQuery_s3 {d s : List Char} :
    goParseAfterQuery (("https").data) []
        ((("//s3.documentcloud.org/documents/").data) ++ (d ++ '/' :: (s ++ ((".pdf").data))))
      = goParseTail (("https").data) []
          ((("//s3.documentcloud.org/documents/").data) ++ (d ++ '/' :: (s ++ ((".pdf").data)))) := by
  unfold goParseAfterQuery
  rw [if_pos]
  rfl

theorem goParseAfterScheme_s3 {d s : List Char}
    (hda : ∀ c ∈ d, isDigitC c = true) (hsa : ∀ c ∈ s, isSlugC c = true) :
    goParseAfterScheme (("https").data)
        ((("//s3.documentcloud.org/documents/").data) ++ (d ++ '/' :: (s ++ ((".pdf").data))))
      = goParseAfterQuery (("https").data) []
          ((("//s3.documentcloud.org/documents/").data) ++ (d ++ '/' :: (s ++ ((".pdf").data)))) := by
  unfold goParseAfterScheme
  rw [hasSuffixL_singleton_false (restA_no_qmark hda hsa),
    cutChar_not_mem (restA_no_qmark hda hsa)]
  simp

theorem goParseNoFrag_mkS3 {d s : List Char}
    (hda : ∀ c ∈ d, isDigitC c = true) (hsa : ∀ c ∈ s, isSlugC c = true) :
    goParseNoFrag (mkS3 d s)
      = some ⟨("https").data, [], s3Marker,
          (("/documents/").data) ++ (d ++ '/' :: (s ++ ((".pdf").data))), [], []⟩ := by
  unfold goParseNoFrag
  rw [mkS3_no_ctl hda hsa]
  rw [if_neg Bool.false_ne_true]
  have hsch : getScheme (mkS3 d s)
      = some (("https").data,
          (("//s3.documentcloud.org/documents/").data) ++ (d ++ '/' :: (s ++ ((".pdf").data)))) := rfl
  rw [hsch]
  show goParseAfterScheme (toLowerL (("https").data))
      ((("//s3.documentcloud.org/documents/").data) ++ (d ++ '/' :: (s ++ ((".pdf").data)))) = _
  rw [show toLowerL (("https").data) = ("https").data from rfl]
  rw [goParseAfterScheme_s3 hda hsa, goParseAfterQuery_s3, goParseTail_s3 hda hsa]

theorem goURLParse_mkS3 {d s : List Char}
    (hda : ∀ c ∈ d, isDigitC c = true) (hsa : ∀ c ∈ s, isSlugC c = true) :
    goURLParse (mkS3 d s)
      = some ⟨("https").data, [], s3Marker,
          (("/documents/").data) ++ (d ++ '/' :: (s ++ ((".pdf").data))), [], []⟩ := by
  unfold goURLParse
  rw [cutChar_not_mem (mkS3_no_hash hda hsa)]
  rw [show ((mkS3 d s, ([] : List Char), false).1) = mkS3 d s from rfl]
  rw [goParseNoFrag_mkS3 hda hsa]
  rfl

/-! ## Resolver-level lemmas -/

theorem extract_branches {input : List Char} {u : GoURL}
    (hp : goURLParse input = some u) :
    extractFinalDocumentCloudURL input
      = (if containsSub u.host s3Marker = true then input
         else match findDocPattern input with
           | none => []
           | some (docID, slug) => mkS3 docID slug) := by
  unfold extractFinalDocumentCloudURL
  rw [hp]

theorem extract_of_marker {input : List Char} {u : GoURL}
    (hp : goURLParse input = some u) (hm : containsSub u.host s3Marker = true) :
    extractFinalDocumentCloudURL input = input := by
  rw [extract_branches hp, if_pos hm]

theorem extract_of_pattern {input : List Char} {u : GoURL} {d s : List Char}
    (hp : goURLParse input = some u) (hm : containsSub u.host s3Marker = false)
    (hf : findDocPattern input = some (d, s)) :
    extractFinalDocumentCloudURL input = mkS3 d s := by
  rw [extract_branches hp, if_neg (by rw [hm]; exact Bool.false_ne_true), hf]

theorem extract_ne_nil {input : List Char}
    (h : extractFinalDocumentCloudURL input ≠ []) :
    ∃ u, goURLParse input = some u ∧
      ((containsSub u.host s3Marker = true ∧ extractFinalDocumentCloudURL input = input) ∨
        ∃ d sl, findDocPattern input = some (d, sl) ∧
          extractFinalDocumentCloudURL input = mkS3 d sl) := by
  cases hp : goURLParse input with
  | none =>
    exfalso
    apply h
    unfold extractFinalDocumentCloudURL
    rw [hp]
  | some u =>
    refine ⟨u, rfl, ?_⟩
    by_cases hm : containsSub u.host s3Marker = true
    · exact Or.inl ⟨hm, extract_of_marker hp hm⟩
    · rw [Bool.not_eq_true] at hm
      cases hf : findDocPattern input with
      | none =>
        exfalso
        apply h
        rw [extract_branches hp, if_neg (by rw [hm]; exact Bool.false_ne_true), hf]
      | some r =>
        exact Or.inr ⟨r.1, r.2, by rw [← hf], extract_of_pattern hp hm (by rw [← hf])⟩

theorem containsSub_marker_self : containsSub s3Marker s3Marker = true := by decide

/-- Resolving the constructed URL again returns it unchanged: its parsed host
is exactly the storage marker. -/
theorem extract_mkS3 {d s : List Char}
    (hda : ∀ c ∈ d, isDigitC c = true) (hsa : ∀ c ∈ s, isSlugC c = true) :
    extractFinalDocumentCloudURL (mkS3 d s) = mkS3 d s :=
  extract_of_marker (goURLParse_mkS3 hda hsa) containsSub_marker_self

/-! ## Path lemmas -/

theorem pathBase_ne_nil (p : List Char) : (pathBase p).isEmpty = false := by
  unfold pathBase
  by_cases hp : p.isEmpty = true
  · rw [if_pos hp]
    rfl
  · rw [if_neg hp]
    by_cases hb : (afterLastSlash (dropTrailingSlashes p)).isEmpty = true
    · rw [if_pos hb]
      rfl
    · rw [if_neg hb, Bool.not_eq_true] at *
      exact hb

/-! ## Event-count lemmas -/

theorem countEv_append (p : Event → Bool) (a b : List Event) :
    countEv p (a ++ b) = countEv p a + countEv p b := by
  simp [countEv, List.filter_append]

theorem downloadPDF_no_fetchEv (env : Env) (u dir : List Char) (fs : FS) :
    countEv isFetchEv (downloadPDF env u dir fs).2 = 0 := by
  unfold downloadPDF
  repeat' split
  all_goals rfl

theorem downloadPDF_create_le_one (env : Env) (u dir : List Char) (fs : FS) :
    countEv isCreateEv (downloadPDF env u dir fs).2 ≤ 1 := by
  unfold downloadPDF
  repeat' split
  all_goals simp [countEv, isCreateEv, List.filter_cons]

theorem driverStep_fetch_count (env : Env) (url : List Char) (fs : FS) :
    countEv isFetchEv (driverStep env url fs).2.1
      = if (driverStep env url fs).2.2 = true then 1 else 0 := by
  have h0 := downloadPDF_no_fetchEv env (extractFinalDocumentCloudURL url) pdfDir fs
  simp only [countEv] at h0 ⊢
  unfold driverStep
  repeat' split
  all_goals first
  | rfl
  | (simp [isFetchEv, List.filter_cons, List.length_eq_zero.mp h0]; done)
  | (exfalso; simp_all; done)

theorem driverStep_create_le_fetch (env : Env) (url : List Char) (fs : FS) :
    countEv isCreateEv (driverStep env url fs).2.1
      ≤ countEv isFetchEv (driverStep env url fs).2.1 := by
  have h0 := downloadPDF_no_fetchEv env (extractFinalDocumentCloudURL url) pdfDir fs
  have h1 := downloadPDF_create_le_one env (extractFinalDocumentCloudURL url) pdfDir fs
  simp only [countEv] at h0 h1 ⊢
  unfold driverStep
  repeat' split
  all_goals first
  | (simp [isCreateEv, isFetchEv]; done)
  | (simp [isCreateEv, isFetchEv, List.filter_cons, List.length_eq_zero.mp h0]
     omega)

theorem runBatch_cap (env : Env) (url : List Char) (rest : List (List Char))
    (count : Nat) (fs : FS) (h : maxDownloads ≤ count) :
    runBatch env (url :: rest) count fs = (fs, [Event.capReached]) := by
  unfold runBatch
  rw [if_pos h]

theorem runBatch_step (env : Env) (url : List Char) (rest : List (List Char))
    (count : Nat) (fs : FS) (h : ¬ maxDownloads ≤ count) :
    runBatch env (url :: rest) count fs
      = ((runBatch env rest
            (if (driverStep env url fs).2.2 = true then count + 1 else count)
            (driverStep env url fs).1).1,
          (driverStep env url fs).2.1
            ++ (runBatch env rest
                  (if (driverStep env url fs).2.2 = true then count + 1 else count)
                  (driverStep env url fs).1).2) := by
  simp only [runBatch]
  rw [if_neg h]

theorem runBatch_fetch_le (env : Env) :
    ∀ (urls : List (List Char)) (count : Nat) (fs : FS), count ≤ maxDownloads →
      countEv isFetchEv (runBatch env urls count fs).2 + count ≤ maxDownloads := by
  intro urls
  induction urls with
  | nil =>
    intro count fs h
    simpa [runBatch, countEv]
  | cons url rest ih =>
    intro count fs h
    by_cases hc : maxDownloads ≤ count
    · rw [runBatch_cap env url rest count fs hc]
      simp only [countEv, List.filter]
      have : isFetchEv Event.capReached = false := rfl
      simp [this, isFetchEv]
      omega
    · rw [runBatch_step env url rest count fs hc]
      dsimp only
      rw [countEv_append]
      have hf := driverStep_fetch_count env url fs
      by_cases hb : (driverStep env url fs).2.2 = true
      · rw [if_pos hb]
        rw [hb, if_pos rfl] at hf
        have h2 := ih (count + 1) (driverStep env url fs).1 (by omega)
        omega
      · rw [if_neg hb]
        rw [Bool.not_eq_true] at hb
        rw [hb] at hf
        simp only [Bool.false_eq_true, if_false] at hf
        have h2 := ih count (driverStep env url fs).1 h
        omega

theorem runBatch_create_le_fetch (env : Env) :
    ∀ (urls : List (List Char)) (count : Nat) (fs : FS),
      countEv isCreateEv (runBatch env urls count fs).2
        ≤ countEv isFetchEv (runBatch env urls count fs).2 := by
  intro urls
  induction urls with
  | nil =>
    intro count fs
    simp [runBatch, countEv]
  | cons url rest ih =>
    intro count fs
    by_cases hc : maxDownloads ≤ count
    · rw [runBatch_cap env url rest count fs hc]
      simp [countEv, isFetchEv, isCreateEv]
    · rw [runBatch_step env url rest count fs hc]
      dsimp only
      rw [countEv_append, countEv_append]
      have h1 := driverStep_create_le_fetch env url fs
      have h2 := ih (if (driverStep env url fs).2.2 = true then count + 1 else count)
        (driverStep env url fs).1
      omega

/-! ## Branch lemmas for the Fetcher and the Batch Driver -/

theorem isEmpty_false_of_ne_nil {l : List Char} (h : l ≠ []) : l.isEmpty = false := by
  cases l with
  | nil => exact absurd rfl h
  | cons a t => rfl

theorem downloadPDF_parse_some {env : Env} {finalURL outputDir : List Char} {fs : FS}
    {u : GoURL} (hp : goURLParse finalURL = some u) :
    downloadPDF env finalURL outputDir fs
      = match fetchFileName u with
        | none => (fs, [Event.noFileName finalURL])
        | some fileName =>
          if env.mkdirOk outputDir = false then (fs, [Event.mkdirFailed outputDir])
          else if fileExists fs (filepathJoin outputDir fileName) = true then
            (fs, [Event.fileExistsSkip (filepathJoin outputDir fileName)])
          else
            match env.net finalURL with
            | none => (fs, [Event.netGet finalURL, Event.downloadFailed finalURL])
            | some resp =>
              if resp.status ≠ 200 then
                (fs, [Event.netGet finalURL, Event.badStatus finalURL])
              else if env.createOk (filepathJoin outputDir fileName) = false then
                (fs, [Event.netGet finalURL,
                  Event.createFailed (filepathJoin outputDir fileName)])
              else
                match resp.copyErr with
                | some k =>
                  (fsUpdate fs (filepathJoin outputDir fileName) (resp.body.take k),
                    [Event.netGet finalURL,
                      Event.fileCreated (filepathJoin outputDir fileName),
                      Event.copyFailed (filepathJoin outputDir fileName)])
                | none =>
                  (fsUpdate fs (filepathJoin outputDir fileName) resp.body,
                    [Event.netGet finalURL,
                      Event.fileCreated (filepathJoin outputDir fileName),
                      Event.downloaded (filepathJoin outputDir fileName)]) := by
  unfold downloadPDF
  rw [hp]

theorem downloadPDF_named {env : Env} {finalURL outputDir : List Char} {fs : FS}
    {u : GoURL} {fn : List Char}
    (hp : goURLParse finalURL = some u) (hfn : fetchFileName u = some fn) :
    downloadPDF env finalURL outputDir fs
      = if env.mkdirOk outputDir = false then (fs, [Event.mkdirFailed outputDir])
        else if fileExists fs (filepathJoin outputDir fn) = true then
          (fs, [Event.fileExistsSkip (filepathJoin outputDir fn)])
        else
          match env.net finalURL with
          | none => (fs, [Event.netGet finalURL, Event.downloadFailed finalURL])
          | some resp =>
            if resp.status ≠ 200 then
              (fs, [Event.netGet finalURL, Event.badStatus finalURL])
            else if env.createOk (filepathJoin outputDir fn) = false then
              (fs, [Event.netGet finalURL,
                Event.createFailed (filepathJoin outputDir fn)])
            else
              match resp.copyErr with
              | some k =>
                (fsUpdate fs (filepathJoin outputDir fn) (resp.body.take k),
                  [Event.netGet finalURL, Event.fileCreated (filepathJoin outputDir fn),
                    Event.copyFailed (filepathJoin outputDir fn)])
              | none =>
                (fsUpdate fs (filepathJoin outputDir fn) resp.body,
                  [Event.netGet finalURL, Event.fileCreated (filepathJoin outputDir fn),
                    Event.downloaded (filepathJoin outputDir fn)]) := by
  rw [downloadPDF_parse_some hp, hfn]

theorem downloadPDF_net {env : Env} {finalURL outputDir : List Char} {fs : FS}
    {u : GoURL} {fn : List Char} {resp : HTTPResponse}
    (hp : goURLParse finalURL = some u) (hfn : fetchFileName u = some fn)
    (hmk : env.mkdirOk outputDir = true)
    (hex : fs (filepathJoin outputDir fn) = none)
    (hnet : env.net finalURL = some resp) :
    downloadPDF env finalURL outputDir fs
      = if resp.status ≠ 200 then
          (fs, [Event.netGet finalURL, Event.badStatus finalURL])
        else if env.createOk (filepathJoin outputDir fn) = false then
          (fs, [Event.netGet finalURL, Event.createFailed (filepathJoin outputDir fn)])
        else
          match resp.copyErr with
          | some k =>
            (fsUpdate fs (filepathJoin outputDir fn) (resp.body.take k),
              [Event.netGet finalURL, Event.fileCreated (filepathJoin outputDir fn),
                Event.copyFailed (filepathJoin outputDir fn)])
          | none =>
            (fsUpdate fs (filepathJoin outputDir fn) resp.body,
              [Event.netGet finalURL, Event.fileCreated (filepathJoin outputDir fn),
                Event.downloaded (filepathJoin outputDir fn)]) := by
  rw [downloadPDF_named hp hfn, if_neg (by simp [hmk]),
    if_neg (by simp [fileExists, hex]), hnet]

theorem driverStep_parsed {env : Env} {url : List Char} {fs : FS} {u : GoURL}
    (hne : extractFinalDocumentCloudURL url ≠ [])
    (hp : goURLParse (extractFinalDocumentCloudURL url) = some u) :
    driverStep env url fs
      = if (pathBase u.path).isEmpty = true then (fs, [], false)
        else if fileExists fs (filepathJoin pdfDir (pathBase u.path)) = true then
          (fs, [Event.existsNotCounted (filepathJoin pdfDir (pathBase u.path))], false)
        else
          ((downloadPDF env (extractFinalDocumentCloudURL url) pdfDir fs).1,
            Event.fetcherInvoked (extractFinalDocumentCloudURL url)
              :: (downloadPDF env (extractFinalDocumentCloudURL url) pdfDir fs).2,
            true) := by
  unfold driverStep
  rw [if_neg (by rw [isEmpty_false_of_ne_nil hne]; exact Bool.false_ne_true), hp]

/-! ## Claim theorems -/

/-- Claim C1: for every candidate string containing the pattern
`documentcloud.org/documents/<digits>-<slug>` that parses as a URL whose host
does not contain `s3.documentcloud.org`, the Pattern Resolver returns exactly
`https://s3.documentcloud.org/documents/<digits>/<slug>.pdf` for a contained
occurrence of the pattern (the leftmost match); in particular the example
input resolves to the example output. -/
theorem pattern_resolver_builds_s3_url :
    (∀ (input pre d s post : List Char) (u : GoURL),
      input = pre ++ (docLit ++ (d ++ '-' :: (s ++ post))) →
      d ≠ [] → (∀ c ∈ d, isDigitC c = true) →
      s ≠ [] → (∀ c ∈ s, isSlugC c = true) →
      goURLParse input = some u →
      containsSub u.host s3Marker = false →
      ∃ d2 s2 pre2 post2,
        input = pre2 ++ (docLit ++ (d2 ++ '-' :: (s2 ++ post2))) ∧
        d2 ≠ [] ∧ (∀ c ∈ d2, isDigitC c = true) ∧
        s2 ≠ [] ∧ (∀ c ∈ s2, isSlugC c = true) ∧
        extractFinalDocumentCloudURL input = mkS3 d2 s2) ∧
    extractFinalDocumentCloudURL exInput = exOutput := by
  constructor
  · intro input pre d s post u hin hd hda hs hsa hp hm
    have hsome : (findDocPattern input).isSome = true := by
      rw [hin]
      exact findDocPattern_isSome (matchDocAt_complete hd hda hs hsa) pre
    cases hf : findDocPattern input with
    | none => rw [hf] at hsome; simp at hsome
    | some r =>
      obtain ⟨d2, s2⟩ := r
      obtain ⟨⟨pre2, post2, hdec⟩, p2, p3, p4, p5⟩ := findDocPattern_sound hf
      exact ⟨d2, s2, pre2, post2, hdec, p2, p3, p4, p5,
        extract_of_pattern hp hm hf⟩
  · decide

/-- Witness for C1 at the spec's example input. -/
theorem pattern_resolver_builds_s3_url_witness :
    ∃ d2 s2 pre2 post2,
      exInput = pre2 ++ (docLit ++ (d2 ++ '-' :: (s2 ++ post2))) ∧
      d2 ≠ [] ∧ (∀ c ∈ d2, isDigitC c = true) ∧
      s2 ≠ [] ∧ (∀ c ∈ s2, isSlugC c = true) ∧
      extractFinalDocumentCloudURL exInput = mkS3 d2 s2 :=
  pattern_resolver_builds_s3_url.1 exInput (("https://www.").data)
    (("23461534").data) (("200301254_redactedclosingreport_redacted").data) []
    ⟨("https").data, [], ("www.documentcloud.org").data,
      ("/documents/23461534-200301254_redactedclosingreport_redacted").data, [], []⟩
    (by decide) (by decide) (by decide) (by decide) (by decide) (by decide) (by decide)

/-- Claim C2: a candidate whose parsed host contains the storage marker is
returned unchanged, and resolution is idempotent on every input with a
non-empty resolution. -/
theorem pattern_resolver_idempotent :
    (∀ (input : List Char) (u : GoURL), goURLParse input = some u →
      containsSub u.host s3Marker = true →
      extractFinalDocumentCloudURL input = input) ∧
    (∀ input : List Char, extractFinalDocumentCloudURL input ≠ [] →
      extractFinalDocumentCloudURL (extractFinalDocumentCloudURL input)
        = extractFinalDocumentCloudURL input) := by
  constructor
  · exact fun input u hp hm => extract_of_marker hp hm
  · intro input h
    obtain ⟨u, hp, hcase⟩ := extract_ne_nil h
    rcases hcase with ⟨hm, he⟩ | ⟨d, sl, hf, he⟩
    · rw [he]
      exact extract_of_marker hp hm
    · obtain ⟨_, _, hda, _, hsa⟩ := findDocPattern_sound hf
      rw [he]
      exact extract_mkS3 hda hsa

/-- Witness for C2: the already-canonical example is returned unchanged, and
resolving the example input twice equals resolving it once. -/
theorem pattern_resolver_idempotent_witness :
    extractFinalDocumentCloudURL exPassthrough = exPassthrough ∧
    extractFinalDocumentCloudURL (extractFinalDocumentCloudURL exInput)
      = extractFinalDocumentCloudURL exInput :=
  ⟨pattern_resolver_idempotent.1 exPassthrough
      ⟨("https").data, [], ("s3.documentcloud.org").data,
        ("/documents/1/a").data, [], []⟩ (by decide) (by decide),
    pattern_resolver_idempotent.2 exInput (by decide)⟩

/-- Counterexample to C3 as stated: `https://xs3.documentcloud.org/a` has a
non-empty resolution (it is returned unchanged because its host contains the
marker as a substring), yet the result does not point at the storage host
`s3.documentcloud.org`. -/
theorem resolved_url_host_not_exact :
    extractFinalDocumentCloudURL exOddHost ≠ [] ∧
    (goURLParse (extractFinalDocumentCloudURL exOddHost)).map GoURL.host
      ≠ some (("s3.documentcloud.org").data) := by
  constructor
  · decide
  · decide

/-- Claim C3, amended: a non-empty resolver result always parses as a URL
whose host contains `s3.documentcloud.org` (not necessarily equals it); the
empty string is the sole failure signal. -/
theorem resolved_nonempty_valid_marker_host (input : List Char)
    (h : extractFinalDocumentCloudURL input ≠ []) :
    ∃ u, goURLParse (extractFinalDocumentCloudURL input) = some u ∧
      containsSub u.host s3Marker = true := by
  obtain ⟨u, hp, hcase⟩ := extract_ne_nil h
  rcases hcase with ⟨hm, he⟩ | ⟨d, sl, hf, he⟩
  · rw [he]
    exact ⟨u, hp, hm⟩
  · obtain ⟨_, _, hda, _, hsa⟩ := findDocPattern_sound hf
    rw [he]
    exact ⟨_, goURLParse_mkS3 hda hsa, containsSub_marker_self⟩

/-- Witness for the amended C3 at the spec's example input. -/
theorem resolved_nonempty_valid_marker_host_witness :
    ∃ u, goURLParse (extractFinalDocumentCloudURL exInput) = some u ∧
      containsSub u.host s3Marker = true :=
  resolved_nonempty_valid_marker_host exInput (by decide)

/-- Claim C4: in one run the Batch Driver performs at most `maxDownloads`
successful new-file creations (and at most `maxDownloads` Fetcher
invocations), and whenever the loop reaches an item with the counter at the
ceiling it logs the cap and stops: the remaining items produce no events at
all and the filesystem is untouched. -/
theorem batch_driver_download_cap (env : Env) (urls : List (List Char)) (fs : FS) :
    countEv isCreateEv (runBatch env urls 0 fs).2 ≤ maxDownloads ∧
    countEv isFetchEv (runBatch env urls 0 fs).2 ≤ maxDownloads ∧
    ∀ (count : Nat) (url : List Char) (rest : List (List Char)) (fs2 : FS),
      maxDownloads ≤ count →
      runBatch env (url :: rest) count fs2 = (fs2, [Event.capReached]) := by
  refine ⟨?_, ?_, ?_⟩
  · have h1 := runBatch_create_le_fetch env urls 0 fs
    have h2 := runBatch_fetch_le env urls 0 fs (Nat.zero_le _)
    omega
  · have h2 := runBatch_fetch_le env urls 0 fs (Nat.zero_le _)
    omega
  · exact fun count url rest fs2 h => runBatch_cap env url rest count fs2 h

/-- Witness for C4 with a one-item list and the no-network oracle. -/
theorem batch_driver_download_cap_witness :
    countEv isCreateEv (runBatch envNoNet [exInput] 0 fsEmpty).2 ≤ maxDownloads ∧
    runBatch envNoNet [exInput] maxDownloads fsEmpty
      = (fsEmpty, [Event.capReached]) :=
  ⟨(batch_driver_download_cap envNoNet [exInput] fsEmpty).1,
    (batch_driver_download_cap envNoNet [exInput] fsEmpty).2.2 maxDownloads exInput []
      fsEmpty (Nat.le_refl _)⟩

/-- Claim C5: one driver step below the cap: an unresolved candidate is
logged and skipped with no Fetcher call and no counter change; a resolved
candidate whose derived target file exists is logged without incrementing;
otherwise the Fetcher is invoked and the counter is incremented whatever the
oracle (network or filesystem) does. -/
theorem batch_driver_step_cases (env : Env) (url : List Char) (fs : FS) :
    (extractFinalDocumentCloudURL url = [] →
      driverStep env url fs = (fs, [Event.unrecognized url], false)) ∧
    (∀ u : GoURL, extractFinalDocumentCloudURL url ≠ [] →
      goURLParse (extractFinalDocumentCloudURL url) = some u →
      fileExists fs (filepathJoin pdfDir (pathBase u.path)) = true →
      driverStep env url fs
        = (fs, [Event.existsNotCounted (filepathJoin pdfDir (pathBase u.path))],
            false)) ∧
    (∀ u : GoURL, extractFinalDocumentCloudURL url ≠ [] →
      goURLParse (extractFinalDocumentCloudURL url) = some u →
      fileExists fs (filepathJoin pdfDir (pathBase u.path)) = false →
      driverStep env url fs
        = ((downloadPDF env (extractFinalDocumentCloudURL url) pdfDir fs).1,
            Event.fetcherInvoked (extractFinalDocumentCloudURL url)
              :: (downloadPDF env (extractFinalDocumentCloudURL url) pdfDir fs).2,
            true)) := by
  refine ⟨?_, ?_, ?_⟩
  · intro he
    unfold driverStep
    rw [if_pos (by rw [he]; rfl)]
  · intro u hne hp hex
    rw [driverStep_parsed hne hp,
      if_neg (by rw [pathBase_ne_nil]; exact Bool.false_ne_true), if_pos hex]
  · intro u hne hp hex
    rw [driverStep_parsed hne hp,
      if_neg (by rw [pathBase_ne_nil]; exact Bool.false_ne_true),
      if_neg (by rw [hex]; exact Bool.false_ne_true)]

/-- Witness for C5: the unresolved case on a plain word, and the
fetch-and-count case on the canonical example against an empty filesystem. -/
theorem batch_driver_step_cases_witness :
    driverStep envNoNet (("nourl").data) fsEmpty
      = (fsEmpty, [Event.unrecognized (("nourl").data)], false) ∧
    driverStep envNoNet exPassthrough fsEmpty
      = ((downloadPDF envNoNet exPassthrough pdfDir fsEmpty).1,
          Event.fetcherInvoked exPassthrough
            :: (downloadPDF envNoNet exPassthrough pdfDir fsEmpty).2,
          true) := by
  constructor
  · exact (batch_driver_step_cases envNoNet (("nourl").data) fsEmpty).1 (by decide)
  · have h := (batch_driver_step_cases envNoNet exPassthrough fsEmpty).2.2
      ⟨("https").data, [], ("s3.documentcloud.org").data, ("/documents/1/a").data, [], []⟩
      (by decide) (by decide) (by decide)
    rw [show extractFinalDocumentCloudURL exPassthrough = exPassthrough from by decide] at h
    exact h

/-- Counterexample to C6 as stated: the resolver passes
`https://s3.documentcloud.org/documents/1/a` through unchanged, the Batch
Driver derives the file name `a` for its existence check, but the Fetcher
derives `a.pdf`, so the two checks test different target paths. -/
theorem driver_fetcher_file_names_diverge :
    extractFinalDocumentCloudURL exPassthrough = exPassthrough ∧
    (goURLParse exPassthrough).map (fun u => (pathBase u.path, fetchFileName u))
      = some ((("a").data), some (("a.pdf").data)) ∧
    filepathJoin pdfDir (("a").data) ≠ filepathJoin pdfDir (("a.pdf").data) := by
  refine ⟨by decide, by decide, by decide⟩

/-- Claim C6, amended: the two derived names agree exactly when the last path
segment of the resolved URL already carries the case-insensitive `.pdf`
suffix; then the driver's and the Fetcher's existence checks test the same
target path. -/
theorem driver_fetcher_file_names_agree (finalURL : List Char) (u : GoURL)
    (hp : goURLParse finalURL = some u)
    (hsuf : hasSuffixL (toLowerL (pathBase u.path)) ((".pdf").data) = true) :
    fetchFileName u = some (pathBase u.path) := by
  unfold fetchFileName
  have h1 : (pathBase u.path).isEmpty = false := pathBase_ne_nil u.path
  have h2 : pathBase u.path ≠ ['/'] := by
    intro he
    rw [he] at hsuf
    exact absurd hsuf (by decide)
  rw [if_neg (by simp [h1, h2]), if_pos hsuf]

/-- Witness for the amended C6 at a `.pdf`-suffixed resolved URL. -/
theorem driver_fetcher_file_names_agree_witness :
    fetchFileName
        ⟨("https").data, [], ("s3.documentcloud.org").data,
          ("/documents/1/a.pdf").data, [], []⟩
      = some (pathBase (("/documents/1/a.pdf").data)) :=
  driver_fetcher_file_names_agree (("https://s3.documentcloud.org/documents/1/a.pdf").data)
    ⟨("https").data, [], ("s3.documentcloud.org").data, ("/documents/1/a.pdf").data, [], []⟩
    (by decide) (by decide)

/-- Claim C7: when the derived target path already holds a file, the Fetcher
changes nothing on disk (in particular the existing file's bytes survive
untouched) and performs no network GET, whatever the oracle. -/
theorem fetcher_existing_file_noop (env : Env) (finalURL outputDir : List Char)
    (fs : FS) (u : GoURL) (fn : List Char) (content : List Nat)
    (hp : goURLParse finalURL = some u)
    (hfn : fetchFileName u = some fn)
    (hex : fs (filepathJoin outputDir fn) = some content) :
    (downloadPDF env finalURL outputDir fs).1 = fs ∧
    (downloadPDF env finalURL outputDir fs).1 (filepathJoin outputDir fn)
      = some content ∧
    countEv isGetEv (downloadPDF env finalURL outputDir fs).2 = 0 := by
  by_cases hm : env.mkdirOk outputDir = false
  · rw [downloadPDF_named hp hfn, if_pos hm]
    exact ⟨rfl, hex, rfl⟩
  · rw [downloadPDF_named hp hfn, if_neg hm,
      if_pos (by simp [fileExists, hex])]
    exact ⟨rfl, hex, rfl⟩

/-- Witness for C7: fetching the passthrough URL into a directory already
holding `a.pdf` leaves the filesystem untouched and performs no GET. -/
theorem fetcher_existing_file_noop_witness :
    (downloadPDF envNoNet exPassthrough pdfDir fsWithFile).1 = fsWithFile ∧
    (downloadPDF envNoNet exPassthrough pdfDir fsWithFile).1
        (filepathJoin pdfDir (("a.pdf").data))
      = some [7] ∧
    countEv isGetEv (downloadPDF envNoNet exPassthrough pdfDir fsWithFile).2 = 0 :=
  fetcher_existing_file_noop envNoNet exPassthrough pdfDir fsWithFile
    ⟨("https").data, [], ("s3.documentcloud.org").data, ("/documents/1/a").data, [], []⟩
    (("a.pdf").data) [7] (by decide) (by decide) (by decide)

/-- Claim C8: the Fetcher is a total procedure that reports failures instead
of propagating them; on a non-2xx response it logs the GET and the bad status
and returns with the filesystem unchanged — no output file is created. -/
theorem fetcher_bad_status_creates_nothing (env : Env)
    (finalURL outputDir : List Char) (fs : FS) (u : GoURL) (fn : List Char)
    (resp : HTTPResponse)
    (hp : goURLParse finalURL = some u) (hfn : fetchFileName u = some fn)
    (hmk : env.mkdirOk outputDir = true)
    (hex : fs (filepathJoin outputDir fn) = none)
    (hnet : env.net finalURL = some resp) (hst : resp.status ≠ 200) :
    downloadPDF env finalURL outputDir fs
      = (fs, [Event.netGet finalURL, Event.badStatus finalURL]) := by
  rw [downloadPDF_net hp hfn hmk hex hnet, if_pos hst]

/-- Witness for C8 with a 404 oracle. -/
theorem fetcher_bad_status_creates_nothing_witness :
    downloadPDF envBadStatus exPassthrough pdfDir fsEmpty
      = (fsEmpty, [Event.netGet exPassthrough, Event.badStatus exPassthrough]) :=
  fetcher_bad_status_creates_nothing envBadStatus exPassthrough pdfDir fsEmpty
    ⟨("https").data, [], ("s3.documentcloud.org").data, ("/documents/1/a").data, [], []⟩
    (("a.pdf").data) ⟨404, [], none⟩ (by decide) (by decide) (by decide) (by decide)
    (by decide) (by decide)

/-- Claim C9: if `os.Create` succeeds but the body copy fails after `k`
bytes, the truncated file (the first `k` bytes) remains on disk, and a later
run's existence check treats it as already downloaded: the Fetcher then
skips without touching the network or the file. -/
theorem fetcher_partial_file_remains (env env2 : Env)
    (finalURL outputDir : List Char) (fs : FS) (u : GoURL) (fn : List Char)
    (resp : HTTPResponse) (k : Nat)
    (hp : goURLParse finalURL = some u) (hfn : fetchFileName u = some fn)
    (hmk : env.mkdirOk outputDir = true)
    (hex : fs (filepathJoin outputDir fn) = none)
    (hnet : env.net finalURL = some resp) (hst : resp.status = 200)
    (hcr : env.createOk (filepathJoin outputDir fn) = true)
    (hcp : resp.copyErr = some k) :
    (downloadPDF env finalURL outputDir fs).1 (filepathJoin outputDir fn)
      = some (resp.body.take k) ∧
    downloadPDF env2 finalURL outputDir (downloadPDF env finalURL outputDir fs).1
      = ((downloadPDF env finalURL outputDir fs).1,
          if env2.mkdirOk outputDir = false then [Event.mkdirFailed outputDir]
          else [Event.fileExistsSkip (filepathJoin outputDir fn)]) := by
  have hrun : downloadPDF env finalURL outputDir fs
      = (fsUpdate fs (filepathJoin outputDir fn) (resp.body.take k),
          [Event.netGet finalURL, Event.fileCreated (filepathJoin outputDir fn),
            Event.copyFailed (filepathJoin outputDir fn)]) := by
    rw [downloadPDF_net hp hfn hmk hex hnet,
      if_neg (by rw [hst]; simp), if_neg (by simp [hcr]), hcp]
  rw [hrun]
  constructor
  · simp [fsUpdate]
  · by_cases hm2 : env2.mkdirOk outputDir = false
    · rw [downloadPDF_named hp hfn, if_pos hm2, if_pos hm2]
    · rw [downloadPDF_named hp hfn, if_neg hm2, if_neg hm2,
        if_pos (by simp [fileExists, fsUpdate])]

/-- Witness for C9 with a copy that fails after two of four body bytes. -/
theorem fetcher_partial_file_remains_witness :
    (downloadPDF envPartialCopy exPassthrough pdfDir fsEmpty).1
        (filepathJoin pdfDir (("a.pdf").data))
      = some ([1, 2, 3, 4].take 2) ∧
    downloadPDF envNoNet exPassthrough pdfDir
        (downloadPDF envPartialCopy exPassthrough pdfDir fsEmpty).1
      = ((downloadPDF envPartialCopy exPassthrough pdfDir fsEmpty).1,
          if envNoNet.mkdirOk pdfDir = false then [Event.mkdirFailed pdfDir]
          else [Event.fileExistsSkip (filepathJoin pdfDir (("a.pdf").data))]) :=
  fetcher_partial_file_remains envPartialCopy envNoNet exPassthrough pdfDir fsEmpty
    ⟨("https").data, [], ("s3.documentcloud.org").data, ("/documents/1/a").data, [], []⟩
    (("a.pdf").data) ⟨200, [1, 2, 3, 4], some 2⟩ 2 (by decide) (by decide) (by decide)
    (by decide) (by decide) (by decide) (by decide) (by decide)

/-- Claim C10: `readFileLines` yields the empty candidate list both on an
open error and on a mid-scan read error (discarding every line already
read), and the batch loop over an empty list performs no work and returns. -/
theorem readFileLines_errors_yield_empty_batch :
    readFileLines none = [] ∧
    (∀ ls : List (List Char), readFileLines (some (ls, true)) = []) ∧
    (∀ (env : Env) (count : Nat) (fs : FS), runBatch env [] count fs = (fs, [])) :=
  ⟨rfl, fun _ => rfl, fun _ _ _ => rfl⟩
